import Mathlib

/-!
Verification of the cellule.js automaton engine (`src/renderer.js`) against its
natural-language specification.  The JS `Renderer` class is shallowly embedded:
the two generation buffers become index-addressed functions, the per-slot
neighborhood references become precomputed index lists resolved against the
slot's own buffer, thrown exceptions become `Except.error`, and user callbacks
become pure functions of everything they can observe through the bound cell
context.
-/

namespace Cellule

/-- An RGB color triple, as produced by the external color utility
(`util.hsvToRgb` returns an object with `r`, `g`, `b` fields). -/

structure Rgb where
  r : Nat
  g : Nat
  b : Nat
deriving DecidableEq

/-- A color argument to a drawing call: either `{r,g,b}` or `{h,s,v}`.
The source detects HSV duck-typed, by the presence of an `h` field
(`c.h != undefined`, renderer.js lines 69 and 80). -/

inductive Color where
  | rgb (r g b : Nat) : Color
  | hsv (h s v : Nat) : Color
deriving DecidableEq

/-- `if(c.h != undefined) c = util.hsvToRgb(c);` — resolve a color to RGB.
`conv` is the external `util.hsvToRgb` collaborator (its file is not part of
the engine; it is passed as a parameter and kept abstract). -/

def resolveColor (conv : Nat → Nat → Nat → Rgb) : Color → Rgb
  | Color.rgb r g b => ⟨r, g, b⟩
  | Color.hsv h s v => conv h s v

/-- A user `loop` callback, as a pure function of everything it can observe
through the bound cell context: the cell's previous state (`cell()` /
`cloneCell()`), the 8 neighbor states (`neighbor(k)`), and the id (`id()`). -/

def LoopFn (σ : Type) : Type :=
  Option σ → List (Option σ) → Int → σ

/-- The `Renderer` object state (constructor, renderer.js lines 6-21).

* `cells b i` is `this.cells[b][i].cell` (the state payload of slot `i` of
  buffer `b`); slot objects are mutated in place in JS, so a buffer is a map
  from index to current payload.
* `nbhd i` is the precomputed neighbor index list of slot `i`: the JS slots
  store, for each buffer `b`, references to slots of that same buffer `b`, and
  the referenced *indices* coincide for both buffers (`computeNeighborhood`
  pushes into `neighborhood[0]` and `neighborhood[1]` in lockstep); a read
  through such a reference is embedded as resolving the stored index against
  the buffer the bound slot belongs to.
* `currentCell` is `this.currentCell`: `none` for JS `null`, otherwise the
  (buffer, index) of the slot object it references.
* `currentId` is `this.currentId` (`none` for JS `null`).
* `pos i` is the per-slot array `this.cells[_][i].pos` (shared by both
  buffers).
* `image k` is byte `k` of `this.image.data`.
* `interval` records whether a periodic timer is pending
  (`this.interval != null`). -/

structure Renderer (σ : Type) where
  fps : Nat
  step : Nat
  currentCell : Option (Nat × Nat)
  currentId : Option Int
  width : Nat
  height : Nat
  cellSize : Nat
  parentId : Option String
  interval : Bool
  setupDone : Bool
  cells : Nat → Nat → Option σ
  nbhd : Nat → List (Option Nat)
  pos : Nat → List Nat
  image : Nat → Nat

/-- The constructor (renderer.js lines 6-21).  `cells`, `nbhd`, `pos` and
`image` do not exist yet in JS (they are created by `createAutomaton`); they
are given inert defaults. -/

def Renderer.init {σ : Type} : Renderer σ :=
  { fps := 30
    step := 0
    currentCell := none
    currentId := some (-1)
    width := 100
    height := 100
    cellSize := 1
    parentId := none
    interval := false
    setupDone := false
    cells := fun _ _ => none
    nbhd := fun _ => []
    pos := fun _ => []
    image := fun _ => 0 }

/-- `setCellSize` (lines 23-29).  The result pairs the post-call object state
with the thrown error message, if any: a throw happens before the assignment,
so the object is returned unchanged in that case. -/

def setCellSize {σ : Type} (size : Nat) (r : Renderer σ) :
    Renderer σ × Option String :=
  if r.setupDone then
    (r, some "This function can only be called in the setup function.")
  else
    ({ r with cellSize := size }, none)

/-- `setSize` (lines 31-38). -/

def setSize {σ : Type} (width height : Nat) (r : Renderer σ) :
    Renderer σ × Option String :=
  if r.setupDone then
    (r, some "This function can only be called in the setup function.")
  else
    ({ r with width := width, height := height }, none)

/-- `setParent` (lines 40-46). -/

def setParent {σ : Type} (parentId : String) (r : Renderer σ) :
    Renderer σ × Option String :=
  if r.setupDone then
    (r, some "This function can only be called in the setup function.")
  else
    ({ r with parentId := some parentId }, none)

/-- `getId` (lines 91-96).  Note the guard compares `this.currentId` against
`null`, exactly as the source does. -/

def getId {σ : Type} (r : Renderer σ) : Except String Int :=
  match r.currentId with
  | none => Except.error "This function can only be called in loop or construct function."
  | some v => Except.ok v

/-- `getCell` (lines 98-103): dereference the bound slot's payload. -/

def getCell {σ : Type} (r : Renderer σ) : Except String (Option σ) :=
  match r.currentCell with
  | none => Except.error "This function can only be called in loop function."
  | some bi => Except.ok (r.cells bi.1 bi.2)

/-- `cloneCell` (lines 105-111): a deep copy of a pure value is the value. -/

def cloneCell {σ : Type} (r : Renderer σ) : Except String (Option σ) :=
  match r.currentCell with
  | none => Except.error "This function can only be called in loop function."
  | some bi => Except.ok (r.cells bi.1 bi.2)

/-- `getNeighbor` (lines 113-119): `null` entries of the neighborhood give
`null`; a present entry is a reference into the bound slot's own buffer, and
its `cell` payload is read at dereference time. -/

def getNeighbor {σ : Type} (index : Nat) (r : Renderer σ) : Except String (Option σ) :=
  match r.currentCell with
  | none => Except.error "This function can only be called in loop function."
  | some bi =>
    Except.ok (((r.nbhd bi.2).getD index none).bind fun j => r.cells bi.1 j)

/-- The fixed offset table of `computeNeighborhood` (lines 171-180), clockwise
from top-left: TOPLEFT, TOP, TOPRIGHT, RIGHT, BOTTOMRIGHT, BOTTOM,
BOTTOMLEFT, LEFT. -/

def nbOffsets : List (Int × Int) :=
  [(-1, -1), (0, -1), (1, -1), (1, 0), (1, 1), (0, 1), (-1, 1), (-1, 0)]

/-- One entry of the neighborhood (loop body, lines 184-199): `none` when the
offset coordinate leaves `[0,width) × [0,height)`, else the linear index
`newX + newY * width` of the referenced slot. -/

def neighborIndex (width height x y : Nat) (d : Int × Int) : Option Nat :=
  let newX : Int := (x : Int) + d.1
  let newY : Int := (y : Int) + d.2
  if newX < 0 ∨ (width : Int) ≤ newX ∨ newY < 0 ∨ (height : Int) ≤ newY then
    none
  else
    some ((newX + newY * (width : Int)).toNat)

/-- `computeNeighborhood` (lines 169-203).  The source builds the two
per-buffer reference lists in lockstep, pushing `null` into both or the
same-index slot of each buffer; the common index structure is the result. -/

def computeNeighborhood (width height x y : Nat) : List (Option Nat) :=
  nbOffsets.map (neighborIndex width height x y)

/-- The per-slot pixel row origin (line 159):
`pos[j] = ((j + y * cellSize) * width + x) * cellSize * 4` with
`x = i % width`, `y = i / width` (lines 152-153). -/

def posFormula (width cellSize i j : Nat) : Nat :=
  ((j + (i / width) * cellSize) * width + (i % width)) * cellSize * 4

/-- `createAutomaton` (lines 121-167): materializes the raster (a fresh canvas
is all-zero bytes) and the two buffers with `null` payloads, and precomputes
each slot's neighborhood and pixel rows.  DOM work is out of scope. -/

def createAutomaton {σ : Type} (r : Renderer σ) : Renderer σ :=
  { r with
    cells := fun _ _ => none
    nbhd := fun i => computeNeighborhood r.width r.height (i % r.width) (i / r.width)
    pos := fun i => (List.range r.cellSize).map (posFormula r.width r.cellSize i)
    image := fun _ => 0 }

/-- Modelled from the spec: `renderer.js` only declares `setupDone` and guards
on it; the wrapper that invokes the user `setup()` callback and then marks the
setup phase complete is not under `src/`.  Per spec section 6, configuration
functions are valid only during `setup()`: after that phase `setupDone` is
`true`. -/

def finishSetup {σ : Type} (r : Renderer σ) : Renderer σ :=
  { r with setupDone := true }

/-- The renderer state visible to `global.construct()` while `start`'s
construction loop evaluates cell `i` (line 218): only `currentId` is bound;
`currentCell` is left untouched. -/

def duringConstruct {σ : Type} (r : Renderer σ) (i : Nat) : Renderer σ :=
  { r with currentId := some (i : Int) }

/-- One iteration of the construction loop (lines 216-220): bind the id, then
`this.cells[this.step][i].cell = global.construct()`, where the callback `cf`
observes the bound id. -/

def constructVisit {σ : Type} (cf : Int → σ) (r : Renderer σ) (i : Nat) : Renderer σ :=
  let r1 := duringConstruct r i
  { r1 with
    cells := fun b =>
      if b = r1.step then
        fun j => if j = i then some (cf (i : Int)) else r1.cells b j
      else r1.cells b }

/-- The neighbor states slot `i` sees at a given instant: each stored index is
dereferenced against the current (`this.step`) buffer, in which the bound
slot lives. -/

def neighborsRead {σ : Type} (r : Renderer σ) (i : Nat) : List (Option σ) :=
  (r.nbhd i).map fun o => o.bind fun j => r.cells r.step j

/-- One iteration of the scan loop (lines 232-237): bind the context to slot
`i` of the current buffer, evaluate the callback on what it can observe, and
store the result in slot `i` of the other buffer. -/

def scanVisit {σ : Type} (f : LoopFn σ) (r : Renderer σ) (i : Nat) : Renderer σ :=
  let r1 := { r with currentCell := some (r.step, i), currentId := some (i : Int) }
  let v := f (r1.cells r1.step i) (neighborsRead r1 i) (i : Int)
  { r1 with
    cells := fun b =>
      if b = 1 - r1.step then
        fun j => if j = i then some v else r1.cells b j
      else r1.cells b }

/-- The sequence of indices visited by the scan loop
(`for(let i = 0; i < this.width * this.height; ++i)`, line 232). -/

def scanOrder {σ : Type} (r : Renderer σ) : List Nat :=
  List.range (r.width * r.height)

/-- `onRender` (lines 228-244): nothing happens without a `loop` callback;
otherwise every cell index is visited in order, the context is unbound, and
the buffer roles flip.  Raster presentation is out of scope. -/

def onRender {σ : Type} (loopF : Option (LoopFn σ)) (r : Renderer σ) : Renderer σ :=
  match loopF with
  | none => r
  | some f =>
    let r1 := (scanOrder r).foldl (scanVisit f) r
    { r1 with currentCell := none, currentId := some (-1), step := 1 - r1.step }

/-- `start` (lines 205-226): finish the setup phase, materialize the
automaton, run the construction pass if a `construct` callback exists
(unbinding the context afterwards), and arm the periodic timer. -/

def start {σ : Type} (constructF : Option (Int → σ)) (r : Renderer σ) : Renderer σ :=
  let r1 := createAutomaton (finishSetup r)
  let r2 :=
    match constructF with
    | none => r1
    | some cf =>
      let r3 := (List.range (r1.width * r1.height)).foldl (constructVisit cf) r1
      { r3 with currentCell := none, currentId := some (-1) }
  { r2 with interval := true }

/-- A single pointwise raster update. -/

def upd (g : Nat → Nat) (i v : Nat) : Nat → Nat :=
  fun j => if j = i then v else g j

/-- The four byte stores of `setPoint` (lines 72-75): R, G, B at `p`, `p+1`,
`p+2` and alpha `255` at `p+3`. -/

def writePixel (img : Nat → Nat) (p : Nat) (c : Rgb) : Nat → Nat :=
  upd (upd (upd (upd img p c.r) (p + 1) c.g) (p + 2) c.b) (p + 3) 255

/-- `setPoint` (lines 64-76): guarded on a bound context; HSV input resolved
first; `p = this.currentCell.pos[y] + x * 4`. -/

def setPoint {σ : Type} (conv : Nat → Nat → Nat → Rgb) (x y : Nat) (c : Color)
    (r : Renderer σ) : Except String (Renderer σ) :=
  match r.currentCell with
  | none => Except.error "This function can only be called in loop function."
  | some bi =>
    let c2 := resolveColor conv c
    let p := (r.pos bi.2).getD y 0 + x * 4
    Except.ok { r with image := writePixel r.image p c2 }

/-- `setBackground` (lines 78-89): resolve the color once, then call
`setPoint(i, j, c)` for every local coordinate; a throw inside `setPoint`
propagates. -/

def setBackground {σ : Type} (conv : Nat → Nat → Nat → Rgb) (c : Color)
    (r : Renderer σ) : Except String (Renderer σ) :=
  let c2 := resolveColor conv c
  (List.range r.cellSize).foldlM
    (fun r1 i =>
      (List.range r1.cellSize).foldlM
        (fun r2 j => setPoint conv i j (Color.rgb c2.r c2.g c2.b) r2) r1)
    r

/-- `Except` success as a Boolean. -/

def okB {α : Type} : Except String α → Bool
  | Except.ok _ => true
  | Except.error _ => false

/-! ### Shared concrete sample automaton, used by the witnesses -/

/-- A concrete `hsvToRgb` stand-in for witnesses. -/
def sampleConv : Nat → Nat → Nat → Rgb := fun _ _ _ => ⟨7, 8, 9⟩

/-- A concrete `construct` callback. -/
def sampleCf : Int → Nat := fun v => v.toNat + 10

/-- A concrete `loop` callback. -/
def sampleLoop : LoopFn Nat := fun c _ v => c.getD 0 + v.toNat + 1

/-- A 2×2 renderer, configured during setup. -/
def sampleBase : Renderer Nat := (setSize 2 2 (Renderer.init : Renderer Nat)).1

/-- The sample renderer after `start()` ran (construction pass done). -/
def sampleStarted : Renderer Nat := start (some sampleCf) sampleBase

/-- The sample renderer after one tick. -/
def sampleTicked : Renderer Nat := onRender (some sampleLoop) sampleStarted

/-- The renderer state at the moment the scan loop is about to visit index
`i`: the visits of `0 … i-1` have already happened. -/
def stateAtVisit {σ : Type} (f : LoopFn σ) (r : Renderer σ) (i : Nat) : Renderer σ :=
  (List.range i).foldl (scanVisit f) r

/-- The value `cell()` (and `cloneCell()`) yields while the scan evaluating
callback `f` is bound to index `i`: the bound slot's payload in the buffer
that is current at that moment. -/
def cellReadAt {σ : Type} (f : LoopFn σ) (r : Renderer σ) (i : Nat) : Option σ :=
  (stateAtVisit f r i).cells (stateAtVisit f r i).step i

/-- The neighbor states `neighbor(k)` yields while the scan is bound to
index `i`. -/
def neighborsReadAt {σ : Type} (f : LoopFn σ) (r : Renderer σ) (i : Nat) : List (Option σ) :=
  neighborsRead (stateAtVisit f r i) i

/-- The scheduler-facing system state: whether a periodic timer is pending
(`timer`, i.e. `this.interval != null`), the renderer it drives, and how many
ticks have been dispatched. -/
structure System (σ : Type) where
  timer : Bool
  rend : Renderer σ
  ticks : Nat

/-- Modelled from the spec: `stop()` is not part of `renderer.js` (the file
only shows the `clearInterval` pattern inside `setFramerate`, lines 57-61);
per spec section 4.5, `stop()` transitions Running → Idle by cancelling the
pending timer. -/
def sysStop {σ : Type} (s : System σ) : System σ :=
  { s with timer := false }

/-- Modelled from the spec: the platform timer dispatches `onRender` only
while an interval is pending; a dispatched tick runs one full scan
atomically (spec section 5: single-threaded, no tick overlap, an in-flight
scan always completes and is never aborted). -/
def timerFire {σ : Type} (loopF : Option (LoopFn σ)) (s : System σ) : System σ :=
  if s.timer then { s with rend := onRender loopF s.rend, ticks := s.ticks + 1 } else s

/-- Modelled from the spec: `start()` (re)arms the periodic timer
(spec section 4.5; `renderer.js` line 225 arms it). -/
def sysStart {σ : Type} (constructF : Option (Int → σ)) (s : System σ) : System σ :=
  { timer := true, rend := start constructF s.rend, ticks := s.ticks }

/-- Scheduler events: a timer firing, a `stop()` call, a `start()` call. -/
inductive SysEv (σ : Type) where
  | fire (loopF : Option (LoopFn σ)) : SysEv σ
  | stopEv : SysEv σ
  | startEv (constructF : Option (Int → σ)) : SysEv σ

def sysStep {σ : Type} (s : System σ) : SysEv σ → System σ
  | SysEv.fire f => timerFire f s
  | SysEv.stopEv => sysStop s
  | SysEv.startEv cf => sysStart cf s

def sysRun {σ : Type} (s : System σ) (evs : List (SysEv σ)) : System σ :=
  evs.foldl sysStep s

/-- The channel value written to a byte at offset `t` within a pixel's 4-byte
group: R, G, B, then the fixed alpha 255. -/
def chanOf (c : Rgb) (t : Nat) : Nat :=
  if t = 0 then c.r else if t = 1 then c.g else if t = 2 then c.b else 255

/-- The byte offset of cell `i`'s top-left pixel in the raster
(`rasterWidth = width * cellSize`, 4 bytes per pixel). -/
def pixelOrigin {σ : Type} (r : Renderer σ) (i : Nat) : Nat :=
  ((i / r.width) * r.cellSize * (r.width * r.cellSize) + (i % r.width) * r.cellSize) * 4

/-- The pure image transformation `setBackground` performs when bound to slot
`i`: the double loop of 4-byte pixel writes. -/
def bgImage {σ : Type} (r : Renderer σ) (i : Nat) (col : Rgb) : Nat → Nat :=
  (List.range r.cellSize).foldl
    (fun acc xx =>
      (List.range r.cellSize).foldl
        (fun acc2 j => writePixel acc2 ((r.pos i).getD j 0 + xx * 4) col) acc)
    r.image

/-- The sample renderer with `cellSize 2` configured during setup. -/
def sampleSized : Renderer Nat := (setCellSize 2 sampleBase).1

/-- The sample renderer right after grid materialization. -/
def sampleCreated : Renderer Nat := createAutomaton (finishSetup sampleSized)

/-- The sample renderer with the context bound to slot 1 (as during a scan). -/
def sampleBound : Renderer Nat := { sampleCreated with currentCell := some (0, 1) }

/-- The sample renderer with the context bound to slot 0 (as during a scan). -/
def sampleBound0 : Renderer Nat := { sampleCreated with currentCell := some (0, 0) }

/-- The sample renderer while `start`'s construction loop evaluates cell 0. -/
def sampleConstructing : Renderer Nat := duringConstruct sampleCreated 0

/-- A concrete running system for the scheduler witnesses. -/
def sampleSystem : System Nat := { timer := true, rend := sampleStarted, ticks := 5 }

/-! ### Frame and store lemmas for the scan and construction loops -/

theorem scanVisit_step {σ : Type} (f : LoopFn σ) (r : Renderer σ) (i : Nat) :
    (scanVisit f r i).step = r.step := rfl

theorem scanVisit_nbhd {σ : Type} (f : LoopFn σ) (r : Renderer σ) (i : Nat) :
    (scanVisit f r i).nbhd = r.nbhd := rfl

theorem scanVisit_cells_ne {σ : Type} (f : LoopFn σ) (r : Renderer σ) (i b : Nat)
    (hb : b ≠ 1 - r.step) : (scanVisit f r i).cells b = r.cells b := by
  simp only [scanVisit]
  rw [if_neg hb]

theorem scanVisit_cells_next {σ : Type} (f : LoopFn σ) (r : Renderer σ) (i j : Nat) :
    (scanVisit f r i).cells (1 - r.step) j =
      if j = i then some (f (r.cells r.step i) (neighborsRead r i) (i : Int))
      else r.cells (1 - r.step) j := by
  simp only [scanVisit, if_true]
  rfl

theorem neighborsRead_eq_of {σ : Type} (r2 r1 : Renderer σ) (i : Nat)
    (h1 : r2.nbhd = r1.nbhd) (h2 : r2.step = r1.step)
    (h3 : r2.cells r1.step = r1.cells r1.step) :
    neighborsRead r2 i = neighborsRead r1 i := by
  unfold neighborsRead
  rw [h1]
  have h4 : r2.cells r2.step = r1.cells r1.step := by rw [h2, h3]
  simp only [h4]

theorem scanFold_step {σ : Type} (f : LoopFn σ) :
    ∀ (L : List Nat) (r : Renderer σ), (L.foldl (scanVisit f) r).step = r.step := by
  intro L
  induction L with
  | nil => intro r; rfl
  | cons a L ih =>
    intro r
    rw [List.foldl_cons, ih (scanVisit f r a), scanVisit_step]

theorem scanFold_frame {σ : Type} (f : LoopFn σ) :
    ∀ (L : List Nat) (r : Renderer σ),
      (L.foldl (scanVisit f) r).width = r.width ∧
      (L.foldl (scanVisit f) r).height = r.height ∧
      (L.foldl (scanVisit f) r).nbhd = r.nbhd ∧
      (L.foldl (scanVisit f) r).pos = r.pos ∧
      (L.foldl (scanVisit f) r).cellSize = r.cellSize := by
  intro L
  induction L with
  | nil => intro r; exact ⟨rfl, rfl, rfl, rfl, rfl⟩
  | cons a L ih =>
    intro r
    rw [List.foldl_cons]
    exact (ih (scanVisit f r a))

theorem scanFold_cells_current {σ : Type} (f : LoopFn σ) :
    ∀ (L : List Nat) (r : Renderer σ), r.step ≤ 1 →
      (L.foldl (scanVisit f) r).cells r.step = r.cells r.step := by
  intro L
  induction L with
  | nil => intro r _; rfl
  | cons a L ih =>
    intro r hs
    rw [List.foldl_cons]
    have h1 : (L.foldl (scanVisit f) (scanVisit f r a)).cells (scanVisit f r a).step =
        (scanVisit f r a).cells (scanVisit f r a).step :=
      ih (scanVisit f r a) (by rw [scanVisit_step]; exact hs)
    rw [scanVisit_step] at h1
    rw [h1]
    exact scanVisit_cells_ne f r a r.step (by omega)

theorem scanFold_store {σ : Type} (f : LoopFn σ) :
    ∀ (L : List Nat) (r : Renderer σ), r.step ≤ 1 → ∀ i,
      (L.foldl (scanVisit f) r).cells (1 - r.step) i =
        if i ∈ L then some (f (r.cells r.step i) (neighborsRead r i) (i : Int))
        else r.cells (1 - r.step) i := by
  intro L
  induction L with
  | nil => intro r _ i; simp
  | cons a L ih =>
    intro r hs i
    rw [List.foldl_cons]
    have hstep : (scanVisit f r a).step = r.step := scanVisit_step f r a
    have hcur : (scanVisit f r a).cells r.step = r.cells r.step :=
      scanVisit_cells_ne f r a r.step (by omega)
    have hnb : neighborsRead (scanVisit f r a) i = neighborsRead r i :=
      neighborsRead_eq_of (scanVisit f r a) r i (scanVisit_nbhd f r a) hstep hcur
    have h1 := ih (scanVisit f r a) (by rw [hstep]; exact hs) i
    have h2 : (List.foldl (scanVisit f) (scanVisit f r a) L).cells (1 - r.step) i =
        if i ∈ L then
          some (f ((scanVisit f r a).cells r.step i)
            (neighborsRead (scanVisit f r a) i) (i : Int))
        else (scanVisit f r a).cells (1 - r.step) i := h1
    rw [h2, hcur, hnb, scanVisit_cells_next]
    by_cases hiL : i ∈ L
    · rw [if_pos hiL, if_pos (List.mem_cons.mpr (Or.inr hiL))]
    · rw [if_neg hiL]
      by_cases hia : i = a
      · rw [if_pos hia, if_pos (List.mem_cons.mpr (Or.inl hia)), hia]
      · rw [if_neg hia, if_neg (by simp [List.mem_cons, hiL, hia])]

theorem constructVisit_step {σ : Type} (cf : Int → σ) (r : Renderer σ) (i : Nat) :
    (constructVisit cf r i).step = r.step := rfl

theorem constructVisit_cells {σ : Type} (cf : Int → σ) (r : Renderer σ) (i j : Nat) :
    (constructVisit cf r i).cells r.step j =
      if j = i then some (cf (i : Int)) else r.cells r.step j := by
  simp only [constructVisit, duringConstruct, if_true]

theorem constructFold_frame {σ : Type} (cf : Int → σ) :
    ∀ (L : List Nat) (r : Renderer σ),
      (L.foldl (constructVisit cf) r).step = r.step ∧
      (L.foldl (constructVisit cf) r).width = r.width ∧
      (L.foldl (constructVisit cf) r).height = r.height ∧
      (L.foldl (constructVisit cf) r).nbhd = r.nbhd ∧
      (L.foldl (constructVisit cf) r).pos = r.pos ∧
      (L.foldl (constructVisit cf) r).cellSize = r.cellSize ∧
      (L.foldl (constructVisit cf) r).setupDone = r.setupDone ∧
      (L.foldl (constructVisit cf) r).currentCell = r.currentCell := by
  intro L
  induction L with
  | nil => intro r; exact ⟨rfl, rfl, rfl, rfl, rfl, rfl, rfl, rfl⟩
  | cons a L ih =>
    intro r
    rw [List.foldl_cons]
    exact ih (constructVisit cf r a)

theorem constructFold_store {σ : Type} (cf : Int → σ) :
    ∀ (L : List Nat) (r : Renderer σ) (i : Nat),
      (L.foldl (constructVisit cf) r).cells r.step i =
        if i ∈ L then some (cf (i : Int)) else r.cells r.step i := by
  intro L
  induction L with
  | nil => intro r i; simp
  | cons a L ih =>
    intro r i
    rw [List.foldl_cons]
    have h1 := ih (constructVisit cf r a) i
    rw [constructVisit_step] at h1
    rw [h1, constructVisit_cells]
    by_cases hiL : i ∈ L
    · rw [if_pos hiL, if_pos (List.mem_cons.mpr (Or.inr hiL))]
    · rw [if_neg hiL]
      by_cases hia : i = a
      · rw [if_pos hia, if_pos (List.mem_cons.mpr (Or.inl hia)), hia]
      · rw [if_neg hia, if_neg (by simp [List.mem_cons, hiL, hia])]

/-! ### C2 — buffer role alternation -/

/-- C2: on every tick on which a scan actually runs (a `loop` callback is
installed), `onRender` flips `this.step`, so the current-buffer selector at
tick `N+1` differs from its value at tick `N`, and stays in `{0,1}`. -/

theorem step_alternates (σ : Type) (f : LoopFn σ) (r : Renderer σ) (hs : r.step ≤ 1) :
    (onRender (some f) r).step = 1 - r.step ∧
    (onRender (some f) r).step ≠ r.step ∧
    (onRender (some f) r).step ≤ 1 := by
  have h1 : (onRender (some f) r).step = 1 - r.step := by
    show (1 - ((scanOrder r).foldl (scanVisit f) r).step) = 1 - r.step
    rw [scanFold_step]
  refine ⟨h1, ?_, ?_⟩ <;> rw [h1] <;> omega

theorem step_alternates_witness :
    sampleStarted.step ≤ 1 ∧
    ((onRender (some sampleLoop) sampleStarted).step = 1 - sampleStarted.step ∧
     (onRender (some sampleLoop) sampleStarted).step ≠ sampleStarted.step ∧
     (onRender (some sampleLoop) sampleStarted).step ≤ 1) :=
  ⟨by decide, step_alternates Nat sampleLoop sampleStarted (by decide)⟩

/-! ### C3 — neighborhood shape -/

theorem neighborIndex_eq_none_iff (width height x y : Nat) (d : Int × Int) :
    neighborIndex width height x y d = none ↔
      ((x : Int) + d.1 < 0 ∨ (width : Int) ≤ (x : Int) + d.1 ∨
       (y : Int) + d.2 < 0 ∨ (height : Int) ≤ (y : Int) + d.2) := by
  simp only [neighborIndex]
  split_ifs with hcond
  · exact iff_of_true rfl hcond
  · exact iff_of_false (by simp) hcond

/-- C3: for every in-grid cell `(x,y)`, the precomputed neighborhood has
exactly 8 entries, laid out over the fixed clockwise offset order TOPLEFT,
TOP, TOPRIGHT, RIGHT, BOTTOMRIGHT, BOTTOM, BOTTOMLEFT, LEFT; entry `k` is
absent (`none`) exactly when the `k`-th offset coordinate leaves
`[0,width) × [0,height)` (bounded, non-wrapping edges); consequently every
interior cell has all 8 neighbors present. -/

theorem computeNeighborhood_entries (width height x y : Nat)
    (hx : x < width) (hy : y < height) :
    nbOffsets = [(-1, -1), (0, -1), (1, -1), (1, 0), (1, 1), (0, 1), (-1, 1), (-1, 0)] ∧
    (computeNeighborhood width height x y).length = 8 ∧
    (∀ k, k < 8 →
      ((computeNeighborhood width height x y).getD k none = none ↔
        ((x : Int) + (nbOffsets.getD k (0, 0)).1 < 0 ∨
         (width : Int) ≤ (x : Int) + (nbOffsets.getD k (0, 0)).1 ∨
         (y : Int) + (nbOffsets.getD k (0, 0)).2 < 0 ∨
         (height : Int) ≤ (y : Int) + (nbOffsets.getD k (0, 0)).2))) ∧
    ((0 < x ∧ x + 1 < width ∧ 0 < y ∧ y + 1 < height) →
      ∀ k, k < 8 →
        ((computeNeighborhood width height x y).getD k none).isSome = true) := by
  refine ⟨rfl, rfl, ?_, ?_⟩
  · intro k hk
    interval_cases k
    · exact neighborIndex_eq_none_iff width height x y (-1, -1)
    · exact neighborIndex_eq_none_iff width height x y (0, -1)
    · exact neighborIndex_eq_none_iff width height x y (1, -1)
    · exact neighborIndex_eq_none_iff width height x y (1, 0)
    · exact neighborIndex_eq_none_iff width height x y (1, 1)
    · exact neighborIndex_eq_none_iff width height x y (0, 1)
    · exact neighborIndex_eq_none_iff width height x y (-1, 1)
    · exact neighborIndex_eq_none_iff width height x y (-1, 0)
  · rintro ⟨h1, h2, h3, h4⟩ k hk
    interval_cases k <;>
      first
      | (show (neighborIndex width height x y (-1, -1)).isSome = true
         simp only [neighborIndex]
         rw [if_neg (by omega)]
         rfl)
      | (show (neighborIndex width height x y (0, -1)).isSome = true
         simp only [neighborIndex]
         rw [if_neg (by omega)]
         rfl)
      | (show (neighborIndex width height x y (1, -1)).isSome = true
         simp only [neighborIndex]
         rw [if_neg (by omega)]
         rfl)
      | (show (neighborIndex width height x y (1, 0)).isSome = true
         simp only [neighborIndex]
         rw [if_neg (by omega)]
         rfl)
      | (show (neighborIndex width height x y (1, 1)).isSome = true
         simp only [neighborIndex]
         rw [if_neg (by omega)]
         rfl)
      | (show (neighborIndex width height x y (0, 1)).isSome = true
         simp only [neighborIndex]
         rw [if_neg (by omega)]
         rfl)
      | (show (neighborIndex width height x y (-1, 1)).isSome = true
         simp only [neighborIndex]
         rw [if_neg (by omega)]
         rfl)
      | (show (neighborIndex width height x y (-1, 0)).isSome = true
         simp only [neighborIndex]
         rw [if_neg (by omega)]
         rfl)

theorem computeNeighborhood_entries_witness :
    (1 < 3 ∧ 1 < 3) ∧
    (nbOffsets = [(-1, -1), (0, -1), (1, -1), (1, 0), (1, 1), (0, 1), (-1, 1), (-1, 0)] ∧
     (computeNeighborhood 3 3 1 1).length = 8 ∧
     (∀ k, k < 8 →
       ((computeNeighborhood 3 3 1 1).getD k none = none ↔
         ((1 : Int) + (nbOffsets.getD k (0, 0)).1 < 0 ∨
          (3 : Int) ≤ (1 : Int) + (nbOffsets.getD k (0, 0)).1 ∨
          (1 : Int) + (nbOffsets.getD k (0, 0)).2 < 0 ∨
          (3 : Int) ≤ (1 : Int) + (nbOffsets.getD k (0, 0)).2))) ∧
     ((0 < 1 ∧ 1 + 1 < 3 ∧ 0 < 1 ∧ 1 + 1 < 3) →
       ∀ k, k < 8 →
         ((computeNeighborhood 3 3 1 1).getD k none).isSome = true)) :=
  ⟨by decide, computeNeighborhood_entries 3 3 1 1 (by decide) (by decide)⟩

/-! ### C4 — scan order and store discipline -/

/-- C4: a scan visits exactly the indices `0 … width*height-1`, each exactly
once, in strictly increasing (row-major, x-fastest) order, and for each
visited index `i` the callback's return value is stored into the next
buffer's slot `i`. -/

theorem scan_row_major (σ : Type) (f : LoopFn σ) (r : Renderer σ) (hs : r.step ≤ 1) :
    scanOrder r = List.range (r.width * r.height) ∧
    (∀ i, i ∈ scanOrder r ↔ i < r.width * r.height) ∧
    (∀ i, i < r.width * r.height → (scanOrder r).count i = 1) ∧
    List.Pairwise (· < ·) (scanOrder r) ∧
    (∀ i, i < r.width * r.height →
      (onRender (some f) r).cells (1 - r.step) i =
        some (f (r.cells r.step i) (neighborsRead r i) (i : Int))) := by
  refine ⟨rfl, fun i => List.mem_range, ?_, ?_, ?_⟩
  · intro i hi
    exact List.count_eq_one_of_mem (List.nodup_range _) (List.mem_range.mpr hi)
  · exact List.pairwise_lt_range _
  · intro i hi
    have hc : (onRender (some f) r).cells = ((scanOrder r).foldl (scanVisit f) r).cells := rfl
    rw [hc, scanFold_store f (scanOrder r) r hs i,
      if_pos (show i ∈ scanOrder r from List.mem_range.mpr hi)]

/-! ### C1 — reads during a tick resolve against the previous generation -/

theorem cellReadAt_pre {σ : Type} (f : LoopFn σ) (r : Renderer σ) (hs : r.step ≤ 1)
    (i : Nat) : cellReadAt f r i = r.cells r.step i := by
  unfold cellReadAt stateAtVisit
  rw [scanFold_step, scanFold_cells_current f _ r hs]

theorem neighborsReadAt_pre {σ : Type} (f : LoopFn σ) (r : Renderer σ) (hs : r.step ≤ 1)
    (i : Nat) : neighborsReadAt f r i = neighborsRead r i := by
  unfold neighborsReadAt stateAtVisit
  exact neighborsRead_eq_of _ r i ((scanFold_frame f _ r).2.2.1) (scanFold_step f _ r)
    (scanFold_cells_current f _ r hs)

/-- C1: during any tick, the state read through the cell context for cell `i`
(via `cell()` or the neighbor accessors) equals the pre-tick current-buffer
value — it is unaffected by the writes the same tick performs for other cells
— and that pre-tick value is exactly what the previous tick's callback
returned for cell `i` (or what `construct` returned, when the previous pass
was `start`'s construction pass). -/

theorem tick_reads_previous_generation (σ : Type) (f g : LoopFn σ) (cf : Int → σ)
    (r r0 : Renderer σ) (hs : r.step ≤ 1) (i : Nat) (hi : i < r.width * r.height)
    (hs0 : r0.step ≤ 1) (i2 : Nat) (hi2 : i2 < r0.width * r0.height) :
    cellReadAt g r i = r.cells r.step i ∧
    neighborsReadAt g r i = neighborsRead r i ∧
    cellReadAt g (onRender (some f) r) i =
      some (f (r.cells r.step i) (neighborsRead r i) (i : Int)) ∧
    cellReadAt g (start (some cf) r0) i2 = some (cf (i2 : Int)) := by
  refine ⟨cellReadAt_pre g r hs i, neighborsReadAt_pre g r hs i, ?_, ?_⟩
  · have hstep2 : (onRender (some f) r).step = 1 - r.step := by
      show 1 - ((scanOrder r).foldl (scanVisit f) r).step = 1 - r.step
      rw [scanFold_step]
    rw [cellReadAt_pre g (onRender (some f) r) (by omega) i, hstep2]
    have hc : (onRender (some f) r).cells = ((scanOrder r).foldl (scanVisit f) r).cells := rfl
    rw [hc, scanFold_store f (scanOrder r) r hs i,
      if_pos (show i ∈ scanOrder r from List.mem_range.mpr hi)]
  · have hstep3 : (start (some cf) r0).step = r0.step := by
      show ((List.range _).foldl (constructVisit cf) (createAutomaton (finishSetup r0))).step
          = r0.step
      rw [(constructFold_frame cf _ _).1]
      rfl
    rw [cellReadAt_pre g (start (some cf) r0) (by rw [hstep3]; exact hs0) i2, hstep3]
    have hc : (start (some cf) r0).cells =
        ((List.range ((createAutomaton (finishSetup r0)).width *
            (createAutomaton (finishSetup r0)).height)).foldl (constructVisit cf)
          (createAutomaton (finishSetup r0))).cells := rfl
    rw [hc]
    have hst : r0.step = (createAutomaton (finishSetup r0)).step := rfl
    rw [hst, constructFold_store cf _ (createAutomaton (finishSetup r0)) i2,
      if_pos (show i2 ∈ List.range ((createAutomaton (finishSetup r0)).width *
          (createAutomaton (finishSetup r0)).height) from List.mem_range.mpr hi2)]

theorem tick_reads_previous_generation_witness :
    (sampleStarted.step ≤ 1 ∧ 1 < sampleStarted.width * sampleStarted.height ∧
     sampleBase.step ≤ 1 ∧ 2 < sampleBase.width * sampleBase.height) ∧
    (cellReadAt sampleLoop sampleStarted 1 = sampleStarted.cells sampleStarted.step 1 ∧
     neighborsReadAt sampleLoop sampleStarted 1 = neighborsRead sampleStarted 1 ∧
     cellReadAt sampleLoop (onRender (some sampleLoop) sampleStarted) 1 =
       some (sampleLoop (sampleStarted.cells sampleStarted.step 1)
         (neighborsRead sampleStarted 1) (1 : Int)) ∧
     cellReadAt sampleLoop (start (some sampleCf) sampleBase) 2 = some (sampleCf (2 : Int))) :=
  ⟨by decide,
   tick_reads_previous_generation Nat sampleLoop sampleLoop sampleCf sampleStarted sampleBase
     (by decide) 1 (by decide) (by decide) 2 (by decide)⟩

/-! ### C7 — setup-only configuration functions fail after start -/

/-- C7: once `start()` has run (so the setup phase is complete), each of the
setup-only configuration functions — `setSize`, `setCellSize`, `setParent` —
throws its error and leaves the renderer, in particular the configured
value, unchanged. -/

theorem config_after_start_fails (σ : Type) (cf : Option (Int → σ)) (r : Renderer σ)
    (s w h : Nat) (p : String) :
    (start cf r).setupDone = true ∧
    setCellSize s (start cf r) =
      (start cf r, some "This function can only be called in the setup function.") ∧
    setSize w h (start cf r) =
      (start cf r, some "This function can only be called in the setup function.") ∧
    setParent p (start cf r) =
      (start cf r, some "This function can only be called in the setup function.") := by
  have hdone : (start cf r).setupDone = true := by
    cases cf with
    | none => rfl
    | some c =>
      show ((List.range _).foldl (constructVisit c)
          (createAutomaton (finishSetup r))).setupDone = true
      rw [(constructFold_frame c _ _).2.2.2.2.2.2.1]
      rfl
  refine ⟨hdone, ?_, ?_, ?_⟩ <;> simp [setCellSize, setSize, setParent, hdone]

/-! ### C8 — the out-of-scan guard of `getId` never fires -/

/-- C8 (divergence witness): outside any scan or construction pass the
unbind sentinel is `-1`, never `null`, so `getId`'s `== null` guard is dead
code and `id()` returns `-1` instead of failing — both on a freshly
constructed renderer and after a completed tick — while `cell()`,
`cloneCell()` and `neighbor()` do fail as the claim states. -/

theorem getId_out_of_scan_returns_value :
    getId sampleTicked = Except.ok (-1) ∧
    getId (Renderer.init : Renderer Nat) = Except.ok (-1) ∧
    okB (getCell sampleTicked) = false ∧
    okB (cloneCell sampleTicked) = false ∧
    okB (getNeighbor 0 sampleTicked) = false :=
  ⟨rfl, rfl, rfl, rfl, rfl⟩

/-! ### C10 — stop cancels the timer; no further ticks -/

theorem sysRun_stopped {σ : Type} :
    ∀ (evs : List (SysEv σ)) (s : System σ), s.timer = false →
      (∀ cf, SysEv.startEv cf ∉ evs) →
      sysRun s evs = s := by
  intro evs
  induction evs with
  | nil => intro s _ _; rfl
  | cons e T ih =>
    intro s hs hno
    have hT : ∀ cf, SysEv.startEv cf ∉ T := by
      intro cf hmem
      exact hno cf (List.mem_cons.mpr (Or.inr hmem))
    cases e with
    | fire f =>
      show sysRun (timerFire f s) T = s
      rw [show timerFire f s = s by unfold timerFire; rw [hs]; rfl]
      exact ih s hs hT
    | stopEv =>
      show sysRun (sysStop s) T = s
      rw [show sysStop s = s by cases s; unfold sysStop; simp_all]
      exact ih s hs hT
    | startEv cf =>
      exact absurd (List.mem_cons_self _ _) (hno cf)

/-- C10: `stop()` moves the scheduler to Idle by cancelling the pending
timer, and afterwards — for any sequence of timer firings and further stop
calls that contains no `start()` — no tick ever occurs: the tick count and
the renderer state stay exactly as they were at the moment of the stop. -/

theorem stop_prevents_ticks (σ : Type) (s : System σ) (evs : List (SysEv σ))
    (hno : ∀ cf, SysEv.startEv cf ∉ evs) :
    (sysStop s).timer = false ∧
    (sysRun (sysStop s) evs).ticks = s.ticks ∧
    (sysRun (sysStop s) evs).rend = s.rend ∧
    (sysRun (sysStop s) evs).timer = false := by
  have h := sysRun_stopped evs (sysStop s) rfl hno
  rw [h]
  exact ⟨rfl, rfl, rfl, rfl⟩

theorem scan_row_major_witness :
    sampleStarted.step ≤ 1 ∧
    (scanOrder sampleStarted = List.range (sampleStarted.width * sampleStarted.height) ∧
     (∀ i, i ∈ scanOrder sampleStarted ↔ i < sampleStarted.width * sampleStarted.height) ∧
     (∀ i, i < sampleStarted.width * sampleStarted.height →
       (scanOrder sampleStarted).count i = 1) ∧
     List.Pairwise (· < ·) (scanOrder sampleStarted) ∧
     (∀ i, i < sampleStarted.width * sampleStarted.height →
       (onRender (some sampleLoop) sampleStarted).cells (1 - sampleStarted.step) i =
         some (sampleLoop (sampleStarted.cells sampleStarted.step i)
           (neighborsRead sampleStarted i) (i : Int)))) :=
  ⟨by decide, scan_row_major Nat sampleLoop sampleStarted (by decide)⟩

/-! ### Pixel compositor machinery (C5, C6, C9) -/

theorem setPoint_ok_of_bound {σ : Type} (conv : Nat → Nat → Nat → Rgb) (x y : Nat)
    (c : Color) (r : Renderer σ) (b i : Nat) (hb : r.currentCell = some (b, i)) :
    setPoint conv x y c r =
      Except.ok { r with
        image := writePixel r.image ((r.pos i).getD y 0 + x * 4) (resolveColor conv c) } := by
  simp [setPoint, hb]

theorem writePixel_at0 (img : Nat → Nat) (p : Nat) (c : Rgb) :
    writePixel img p c p = c.r := by
  simp only [writePixel, upd]
  rw [if_neg (by omega), if_neg (by omega), if_neg (by omega)]
  simp

theorem writePixel_at1 (img : Nat → Nat) (p : Nat) (c : Rgb) :
    writePixel img p c (p + 1) = c.g := by
  simp only [writePixel, upd]
  rw [if_neg (by omega), if_neg (by omega)]
  simp [show ¬ p + 1 = p by omega]

theorem writePixel_at2 (img : Nat → Nat) (p : Nat) (c : Rgb) :
    writePixel img p c (p + 2) = c.b := by
  simp only [writePixel, upd]
  rw [if_neg (by omega)]
  simp [show ¬ p + 2 = p + 1 by omega, show ¬ p + 2 = p by omega]

theorem writePixel_at3 (img : Nat → Nat) (p : Nat) (c : Rgb) :
    writePixel img p c (p + 3) = 255 := by
  simp only [writePixel, upd]
  simp [show ¬ p + 3 = p + 2 by omega, show ¬ p + 3 = p + 1 by omega,
    show ¬ p + 3 = p by omega]

theorem writePixel_other (img : Nat → Nat) (p : Nat) (c : Rgb) (k : Nat)
    (h0 : k ≠ p) (h1 : k ≠ p + 1) (h2 : k ≠ p + 2) (h3 : k ≠ p + 3) :
    writePixel img p c k = img k := by
  simp only [writePixel, upd]
  rw [if_neg h3, if_neg h2, if_neg h1, if_neg h0]

theorem writePixel_char (img : Nat → Nat) (p : Nat) (c : Rgb) (k : Nat)
    (hp : p % 4 = 0) :
    writePixel img p c k = if p ≤ k ∧ k < p + 4 then chanOf c (k % 4) else img k := by
  by_cases h0 : k = p
  · rw [h0, writePixel_at0, if_pos (by omega)]
    unfold chanOf
    rw [if_pos (by omega)]
  · by_cases h1 : k = p + 1
    · rw [h1, writePixel_at1, if_pos (by omega)]
      unfold chanOf
      rw [if_neg (by omega), if_pos (by omega)]
    · by_cases h2 : k = p + 2
      · rw [h2, writePixel_at2, if_pos (by omega)]
        unfold chanOf
        rw [if_neg (by omega), if_neg (by omega), if_pos (by omega)]
      · by_cases h3 : k = p + 3
        · rw [h3, writePixel_at3, if_pos (by omega)]
          unfold chanOf
          rw [if_neg (by omega), if_neg (by omega), if_neg (by omega)]
        · rw [writePixel_other img p c k h0 h1 h2 h3]
          by_cases hin : p ≤ k ∧ k < p + 4
          · omega
          · rw [if_neg hin]

theorem getD_map_range {α : Type} (f : Nat → α) (n y : Nat) (d : α) (h : y < n) :
    ((List.range n).map f).getD y d = f y := by
  rw [List.getD_eq_getElem?_getD, List.getElem?_map, List.getElem?_range h]
  rfl

theorem getD_map_range_ge {α : Type} (f : Nat → α) (n y : Nat) (d : α) (h : n ≤ y) :
    ((List.range n).map f).getD y d = d := by
  rw [List.getD_eq_getElem?_getD, List.getElem?_eq_none (by simpa using h)]
  rfl

theorem bgInner_ok {σ : Type} (conv : Nat → Nat → Nat → Rgb) (cc : Color) (xx : Nat) :
    ∀ (L : List Nat) (r : Renderer σ) (b i : Nat), r.currentCell = some (b, i) →
      (L.foldlM (fun r2 j => setPoint conv xx j cc r2) r : Except String (Renderer σ)) =
        Except.ok { r with
          image := L.foldl
            (fun acc j => writePixel acc ((r.pos i).getD j 0 + xx * 4) (resolveColor conv cc))
            r.image } := by
  intro L
  induction L with
  | nil => intro r b i _; rfl
  | cons a T ih =>
    intro r b i hb
    simp only [List.foldlM_cons, setPoint_ok_of_bound conv xx a cc r b i hb]
    show (T.foldlM (fun r2 j => setPoint conv xx j cc r2)
        { r with image := writePixel r.image ((r.pos i).getD a 0 + xx * 4) (resolveColor conv cc) }
        : Except String (Renderer σ)) = _
    rw [ih { r with
      image := writePixel r.image ((r.pos i).getD a 0 + xx * 4) (resolveColor conv cc) } b i hb]
    rfl

theorem bgOuter_ok {σ : Type} (conv : Nat → Nat → Nat → Rgb) (cc : Color) :
    ∀ (L : List Nat) (r : Renderer σ) (b i : Nat), r.currentCell = some (b, i) →
      (L.foldlM
          (fun r1 xx =>
            (List.range r1.cellSize).foldlM (fun r2 j => setPoint conv xx j cc r2) r1)
          r : Except String (Renderer σ)) =
        Except.ok { r with
          image := L.foldl
            (fun acc xx =>
              (List.range r.cellSize).foldl
                (fun acc2 j => writePixel acc2 ((r.pos i).getD j 0 + xx * 4) (resolveColor conv cc))
                acc)
            r.image } := by
  intro L
  induction L with
  | nil => intro r b i _; rfl
  | cons a T ih =>
    intro r b i hb
    simp only [List.foldlM_cons]
    rw [bgInner_ok conv cc a (List.range r.cellSize) r b i hb]
    show (T.foldlM
        (fun r1 xx =>
          (List.range r1.cellSize).foldlM (fun r2 j => setPoint conv xx j cc r2) r1)
        { r with
          image := (List.range r.cellSize).foldl
            (fun acc j => writePixel acc ((r.pos i).getD j 0 + a * 4) (resolveColor conv cc))
            r.image }
        : Except String (Renderer σ)) = _
    rw [ih { r with
      image := (List.range r.cellSize).foldl
        (fun acc j => writePixel acc ((r.pos i).getD j 0 + a * 4) (resolveColor conv cc))
        r.image } b i hb]
    rfl

theorem setBackground_ok_of_bound {σ : Type} (conv : Nat → Nat → Nat → Rgb) (c : Color)
    (r : Renderer σ) (b i : Nat) (hb : r.currentCell = some (b, i)) :
    setBackground conv c r = Except.ok { r with image := bgImage r i (resolveColor conv c) } := by
  simp only [setBackground]
  rw [bgOuter_ok conv
    (Color.rgb (resolveColor conv c).r (resolveColor conv c).g (resolveColor conv c).b)
    (List.range r.cellSize) r b i hb]
  rfl

theorem setBackground_err_of_unbound {σ : Type} (conv : Nat → Nat → Nat → Rgb) (c : Color)
    (r : Renderer σ) (hb : r.currentCell = none) (hcs : 0 < r.cellSize) :
    setBackground conv c r =
      Except.error "This function can only be called in loop function." := by
  obtain ⟨n, hn⟩ : ∃ n, r.cellSize = n + 1 := ⟨r.cellSize - 1, by omega⟩
  have hsp : ∀ cc : Color, setPoint conv 0 0 cc r =
      Except.error "This function can only be called in loop function." := by
    intro cc
    simp [setPoint, hb]
  simp only [setBackground, hn, List.range_succ_eq_map, List.foldlM_cons, hn, hsp]
  rfl

theorem rowFold_char (col : Rgb) (P : Nat → Nat) (x4 : Nat)
    (hP : ∀ j, (P j + x4) % 4 = 0) :
    ∀ (L : List Nat) (im : Nat → Nat) (k : Nat),
      (L.foldl (fun acc j => writePixel acc (P j + x4) col) im) k =
        if ∃ j, j ∈ L ∧ P j + x4 ≤ k ∧ k < P j + x4 + 4 then chanOf col (k % 4)
        else im k := by
  intro L
  induction L with
  | nil => intro im k; simp
  | cons a T ih =>
    intro im k
    rw [List.foldl_cons, ih]
    by_cases hT : ∃ j, j ∈ T ∧ P j + x4 ≤ k ∧ k < P j + x4 + 4
    · rw [if_pos hT]
      obtain ⟨j, hjT, hj⟩ := hT
      rw [if_pos ⟨j, List.mem_cons.mpr (Or.inr hjT), hj⟩]
    · rw [if_neg hT, writePixel_char _ _ _ _ (hP a)]
      by_cases ha : P a + x4 ≤ k ∧ k < P a + x4 + 4
      · rw [if_pos ha, if_pos ⟨a, List.mem_cons_self a T, ha⟩]
      · rw [if_neg ha, if_neg (show ¬ ∃ j, j ∈ a :: T ∧ P j + x4 ≤ k ∧ k < P j + x4 + 4 by
          rintro ⟨j, hj, hjr⟩
          rcases List.mem_cons.mp hj with h | h
          · exact ha (h ▸ hjr)
          · exact hT ⟨j, h, hjr⟩)]

theorem bgFold_char (col : Rgb) (P : Nat → Nat) (cs : Nat)
    (hP : ∀ j xx, (P j + xx * 4) % 4 = 0) :
    ∀ (L : List Nat) (im : Nat → Nat) (k : Nat),
      (L.foldl (fun acc xx =>
          (List.range cs).foldl (fun acc2 j => writePixel acc2 (P j + xx * 4) col) acc) im) k =
        if ∃ xx, xx ∈ L ∧ ∃ j, j ∈ List.range cs ∧
            P j + xx * 4 ≤ k ∧ k < P j + xx * 4 + 4
        then chanOf col (k % 4) else im k := by
  intro L
  induction L with
  | nil => intro im k; simp
  | cons a T ih =>
    intro im k
    rw [List.foldl_cons, ih]
    by_cases hT : ∃ xx, xx ∈ T ∧ ∃ j, j ∈ List.range cs ∧
        P j + xx * 4 ≤ k ∧ k < P j + xx * 4 + 4
    · rw [if_pos hT]
      obtain ⟨xx, hxT, hj⟩ := hT
      rw [if_pos ⟨xx, List.mem_cons.mpr (Or.inr hxT), hj⟩]
    · rw [if_neg hT, rowFold_char col P (a * 4) (fun j => hP j a) (List.range cs) im k]
      by_cases ha : ∃ j, j ∈ List.range cs ∧ P j + a * 4 ≤ k ∧ k < P j + a * 4 + 4
      · rw [if_pos ha, if_pos ⟨a, List.mem_cons_self a T, ha⟩]
      · rw [if_neg ha, if_neg (show ¬ ∃ xx, xx ∈ a :: T ∧ ∃ j, j ∈ List.range cs ∧
            P j + xx * 4 ≤ k ∧ k < P j + xx * 4 + 4 by
          rintro ⟨xx, hx2, hj⟩
          rcases List.mem_cons.mp hx2 with h | h
          · exact ha (h ▸ hj)
          · exact hT ⟨xx, h, hj⟩)]

theorem bgImage_char {σ : Type} (r : Renderer σ) (i : Nat) (col : Rgb)
    (hpos : r.pos i = (List.range r.cellSize).map (posFormula r.width r.cellSize i))
    (k : Nat) :
    bgImage r i col k =
      if ∃ xx, xx ∈ List.range r.cellSize ∧ ∃ j, j ∈ List.range r.cellSize ∧
          (r.pos i).getD j 0 + xx * 4 ≤ k ∧ k < (r.pos i).getD j 0 + xx * 4 + 4
      then chanOf col (k % 4) else r.image k := by
  have hP : ∀ j xx, ((r.pos i).getD j 0 + xx * 4) % 4 = 0 := by
    intro j xx
    by_cases hj : j < r.cellSize
    · rw [hpos, getD_map_range _ _ _ _ hj]
      unfold posFormula
      omega
    · rw [hpos, getD_map_range_ge _ _ _ _ (by omega)]
      omega
  exact bgFold_char col (fun j => (r.pos i).getD j 0) r.cellSize hP
    (List.range r.cellSize) r.image k

theorem pixelInj (W px py px2 py2 : Nat) (h1 : px < W) (h2 : px2 < W)
    (h : py * W + px = py2 * W + px2) : px = px2 ∧ py = py2 := by
  have hW : 0 < W := by omega
  have e1 : (py * W + px) % W = px := by
    rw [Nat.add_comm, Nat.add_mul_mod_self_right]
    exact Nat.mod_eq_of_lt h1
  have e2 : (py2 * W + px2) % W = px2 := by
    rw [Nat.add_comm, Nat.add_mul_mod_self_right]
    exact Nat.mod_eq_of_lt h2
  have hpx : px = px2 := by rw [← e1, ← e2, h]
  refine ⟨hpx, ?_⟩
  have hmul : py * W = py2 * W := by omega
  exact Nat.eq_of_mul_eq_mul_right hW hmul

theorem posFormula_pixel (w cs i j x : Nat) :
    posFormula w cs i j + x * 4 =
      (((i / w) * cs + j) * (w * cs) + ((i % w) * cs + x)) * 4 := by
  unfold posFormula
  ring

/-! ### C5 — `setPoint` writes exactly 4 RGBA bytes at the specified offset -/

/-- C5: for a bound cell `i` (with the precomputed `pos` rows) and local
coordinates inside the cell, `setPoint` succeeds and writes exactly the 4
bytes at `pixelOrigin(i) + (localY * rasterWidth + localX) * 4` — R, G, B of
the resolved color and alpha fixed at 255 — leaving every other byte
untouched; a color carrying an `h` field is resolved through the external
HSV→RGB conversion first (duck-typed), while an `{r,g,b}` color is used
as-is. -/

theorem setPoint_writes_rgba (σ : Type) (conv : Nat → Nat → Nat → Rgb) (c : Color)
    (r : Renderer σ) (b i x y : Nat)
    (hb : r.currentCell = some (b, i))
    (hpos : r.pos i = (List.range r.cellSize).map (posFormula r.width r.cellSize i))
    (hx : x < r.cellSize) (hy : y < r.cellSize) :
    ∃ r2, setPoint conv x y c r = Except.ok r2 ∧
      r2.image (pixelOrigin r i + (y * (r.width * r.cellSize) + x) * 4) =
        (resolveColor conv c).r ∧
      r2.image (pixelOrigin r i + (y * (r.width * r.cellSize) + x) * 4 + 1) =
        (resolveColor conv c).g ∧
      r2.image (pixelOrigin r i + (y * (r.width * r.cellSize) + x) * 4 + 2) =
        (resolveColor conv c).b ∧
      r2.image (pixelOrigin r i + (y * (r.width * r.cellSize) + x) * 4 + 3) = 255 ∧
      (∀ k, k < pixelOrigin r i + (y * (r.width * r.cellSize) + x) * 4 ∨
          pixelOrigin r i + (y * (r.width * r.cellSize) + x) * 4 + 4 ≤ k →
        r2.image k = r.image k) ∧
      (∀ a2 b2 c2, resolveColor conv (Color.rgb a2 b2 c2) = ⟨a2, b2, c2⟩) ∧
      (∀ h2 s2 v2, resolveColor conv (Color.hsv h2 s2 v2) = conv h2 s2 v2) := by
  have hP : (r.pos i).getD y 0 + x * 4 =
      pixelOrigin r i + (y * (r.width * r.cellSize) + x) * 4 := by
    rw [hpos, getD_map_range _ _ _ _ hy]
    unfold posFormula pixelOrigin
    ring
  refine ⟨{ r with
      image := writePixel r.image
        (pixelOrigin r i + (y * (r.width * r.cellSize) + x) * 4) (resolveColor conv c) },
    ?_, writePixel_at0 _ _ _, writePixel_at1 _ _ _, writePixel_at2 _ _ _,
    writePixel_at3 _ _ _, ?_, fun a2 b2 c2 => rfl, fun h2 s2 v2 => rfl⟩
  · rw [setPoint_ok_of_bound conv x y c r b i hb, hP]
  · intro k hk
    exact writePixel_other _ _ _ k (by omega) (by omega) (by omega) (by omega)

theorem setPoint_writes_rgba_witness :
    (sampleBound.currentCell = some (0, 1) ∧
     sampleBound.pos 1 = (List.range sampleBound.cellSize).map
       (posFormula sampleBound.width sampleBound.cellSize 1) ∧
     1 < sampleBound.cellSize ∧ 0 < sampleBound.cellSize) ∧
    (∃ r2, setPoint sampleConv 1 0 (Color.hsv 5 6 7) sampleBound = Except.ok r2 ∧
      r2.image (pixelOrigin sampleBound 1 +
        (0 * (sampleBound.width * sampleBound.cellSize) + 1) * 4) =
        (resolveColor sampleConv (Color.hsv 5 6 7)).r ∧
      r2.image (pixelOrigin sampleBound 1 +
        (0 * (sampleBound.width * sampleBound.cellSize) + 1) * 4 + 1) =
        (resolveColor sampleConv (Color.hsv 5 6 7)).g ∧
      r2.image (pixelOrigin sampleBound 1 +
        (0 * (sampleBound.width * sampleBound.cellSize) + 1) * 4 + 2) =
        (resolveColor sampleConv (Color.hsv 5 6 7)).b ∧
      r2.image (pixelOrigin sampleBound 1 +
        (0 * (sampleBound.width * sampleBound.cellSize) + 1) * 4 + 3) = 255 ∧
      (∀ k, k < pixelOrigin sampleBound 1 +
          (0 * (sampleBound.width * sampleBound.cellSize) + 1) * 4 ∨
          pixelOrigin sampleBound 1 +
            (0 * (sampleBound.width * sampleBound.cellSize) + 1) * 4 + 4 ≤ k →
        r2.image k = sampleBound.image k) ∧
      (∀ a2 b2 c2, resolveColor sampleConv (Color.rgb a2 b2 c2) = ⟨a2, b2, c2⟩) ∧
      (∀ h2 s2 v2, resolveColor sampleConv (Color.hsv h2 s2 v2) = sampleConv h2 s2 v2)) :=
  ⟨⟨by decide, by decide, by decide, by decide⟩,
   setPoint_writes_rgba Nat sampleConv (Color.hsv 5 6 7) sampleBound 0 1 1 0
     (by decide) (by decide) (by decide) (by decide)⟩

/-! ### C6 — `setBackground` fills exactly the bound cell's pixel block -/

/-- C6: for a bound cell `i` of a properly materialized renderer,
`setBackground` succeeds, paints every pixel of the cell's
`cellSize × cellSize` raster block with the resolved color (alpha 255), and
leaves every byte of every raster pixel outside that block unmodified. -/

theorem setBackground_fills_block (σ : Type) (conv : Nat → Nat → Nat → Rgb) (c : Color)
    (r : Renderer σ) (b i : Nat)
    (hb : r.currentCell = some (b, i))
    (hpos : r.pos i = (List.range r.cellSize).map (posFormula r.width r.cellSize i))
    (hw : 0 < r.width) :
    ∃ r2, setBackground conv c r = Except.ok r2 ∧
      (∀ lx ly, lx < r.cellSize → ly < r.cellSize →
        r2.image ((((i / r.width) * r.cellSize + ly) * (r.width * r.cellSize) +
            ((i % r.width) * r.cellSize + lx)) * 4) = (resolveColor conv c).r ∧
        r2.image ((((i / r.width) * r.cellSize + ly) * (r.width * r.cellSize) +
            ((i % r.width) * r.cellSize + lx)) * 4 + 1) = (resolveColor conv c).g ∧
        r2.image ((((i / r.width) * r.cellSize + ly) * (r.width * r.cellSize) +
            ((i % r.width) * r.cellSize + lx)) * 4 + 2) = (resolveColor conv c).b ∧
        r2.image ((((i / r.width) * r.cellSize + ly) * (r.width * r.cellSize) +
            ((i % r.width) * r.cellSize + lx)) * 4 + 3) = 255) ∧
      (∀ px py t, t < 4 → px < r.width * r.cellSize →
        (px < (i % r.width) * r.cellSize ∨
         (i % r.width) * r.cellSize + r.cellSize ≤ px ∨
         py < (i / r.width) * r.cellSize ∨
         (i / r.width) * r.cellSize + r.cellSize ≤ py) →
        r2.image ((py * (r.width * r.cellSize) + px) * 4 + t) =
          r.image ((py * (r.width * r.cellSize) + px) * 4 + t)) := by
  refine ⟨{ r with image := bgImage r i (resolveColor conv c) },
    setBackground_ok_of_bound conv c r b i hb, ?_, ?_⟩
  · intro lx ly hlx hly
    have hD : (r.pos i).getD ly 0 + lx * 4 =
        (((i / r.width) * r.cellSize + ly) * (r.width * r.cellSize) +
          ((i % r.width) * r.cellSize + lx)) * 4 := by
      rw [hpos, getD_map_range _ _ _ _ hly]
      exact posFormula_pixel r.width r.cellSize i ly lx
    refine ⟨?_, ?_, ?_, ?_⟩
    · show bgImage r i (resolveColor conv c)
        ((((i / r.width) * r.cellSize + ly) * (r.width * r.cellSize) +
          ((i % r.width) * r.cellSize + lx)) * 4) = (resolveColor conv c).r
      rw [bgImage_char r i (resolveColor conv c) hpos,
        if_pos ⟨lx, List.mem_range.mpr hlx, ly, List.mem_range.mpr hly,
          by rw [hD], by rw [hD]; omega⟩]
      have h4 : (((i / r.width) * r.cellSize + ly) * (r.width * r.cellSize) +
          ((i % r.width) * r.cellSize + lx)) * 4 % 4 = 0 := by omega
      rw [h4]
      rfl
    · show bgImage r i (resolveColor conv c)
        ((((i / r.width) * r.cellSize + ly) * (r.width * r.cellSize) +
          ((i % r.width) * r.cellSize + lx)) * 4 + 1) = (resolveColor conv c).g
      rw [bgImage_char r i (resolveColor conv c) hpos,
        if_pos ⟨lx, List.mem_range.mpr hlx, ly, List.mem_range.mpr hly,
          by rw [hD]; omega, by rw [hD]; omega⟩]
      have h4 : ((((i / r.width) * r.cellSize + ly) * (r.width * r.cellSize) +
          ((i % r.width) * r.cellSize + lx)) * 4 + 1) % 4 = 1 := by omega
      rw [h4]
      rfl
    · show bgImage r i (resolveColor conv c)
        ((((i / r.width) * r.cellSize + ly) * (r.width * r.cellSize) +
          ((i % r.width) * r.cellSize + lx)) * 4 + 2) = (resolveColor conv c).b
      rw [bgImage_char r i (resolveColor conv c) hpos,
        if_pos ⟨lx, List.mem_range.mpr hlx, ly, List.mem_range.mpr hly,
          by rw [hD]; omega, by rw [hD]; omega⟩]
      have h4 : ((((i / r.width) * r.cellSize + ly) * (r.width * r.cellSize) +
          ((i % r.width) * r.cellSize + lx)) * 4 + 2) % 4 = 2 := by omega
      rw [h4]
      rfl
    · show bgImage r i (resolveColor conv c)
        ((((i / r.width) * r.cellSize + ly) * (r.width * r.cellSize) +
          ((i % r.width) * r.cellSize + lx)) * 4 + 3) = 255
      rw [bgImage_char r i (resolveColor conv c) hpos,
        if_pos ⟨lx, List.mem_range.mpr hlx, ly, List.mem_range.mpr hly,
          by rw [hD]; omega, by rw [hD]; omega⟩]
      have h4 : ((((i / r.width) * r.cellSize + ly) * (r.width * r.cellSize) +
          ((i % r.width) * r.cellSize + lx)) * 4 + 3) % 4 = 3 := by omega
      rw [h4]
      rfl
  · intro px py t ht hpx hout
    show bgImage r i (resolveColor conv c) ((py * (r.width * r.cellSize) + px) * 4 + t) =
      r.image ((py * (r.width * r.cellSize) + px) * 4 + t)
    rw [bgImage_char r i (resolveColor conv c) hpos,
      if_neg (show ¬ ∃ xx, xx ∈ List.range r.cellSize ∧ ∃ j, j ∈ List.range r.cellSize ∧
          (r.pos i).getD j 0 + xx * 4 ≤ (py * (r.width * r.cellSize) + px) * 4 + t ∧
          (py * (r.width * r.cellSize) + px) * 4 + t < (r.pos i).getD j 0 + xx * 4 + 4 by
        rintro ⟨xx, hxx, j, hj, hle, hlt⟩
        rw [List.mem_range] at hxx hj
        rw [hpos, getD_map_range _ _ _ _ hj, posFormula_pixel] at hle hlt
        have hA : ((i / r.width) * r.cellSize + j) * (r.width * r.cellSize) +
            ((i % r.width) * r.cellSize + xx) = py * (r.width * r.cellSize) + px := by
          omega
        have hx2 : (i % r.width) * r.cellSize + xx < r.width * r.cellSize := by
          have him : i % r.width < r.width := Nat.mod_lt i hw
          have hle2 : ((i % r.width) + 1) * r.cellSize ≤ r.width * r.cellSize :=
            Nat.mul_le_mul_right _ (by omega)
          have hexp : ((i % r.width) + 1) * r.cellSize =
              (i % r.width) * r.cellSize + r.cellSize := by ring
          omega
        obtain ⟨hpxe, hpye⟩ := pixelInj (r.width * r.cellSize)
          ((i % r.width) * r.cellSize + xx) ((i / r.width) * r.cellSize + j)
          px py hx2 hpx hA
        rcases hout with h | h | h | h <;> omega)]

theorem setBackground_fills_block_witness :
    (sampleBound0.currentCell = some (0, 0) ∧
     sampleBound0.pos 0 = (List.range sampleBound0.cellSize).map
       (posFormula sampleBound0.width sampleBound0.cellSize 0) ∧
     0 < sampleBound0.width) ∧
    (∃ r2, setBackground sampleConv (Color.rgb 255 0 0) sampleBound0 = Except.ok r2 ∧
      (∀ lx ly, lx < sampleBound0.cellSize → ly < sampleBound0.cellSize →
        r2.image ((((0 / sampleBound0.width) * sampleBound0.cellSize + ly) *
            (sampleBound0.width * sampleBound0.cellSize) +
            ((0 % sampleBound0.width) * sampleBound0.cellSize + lx)) * 4) =
          (resolveColor sampleConv (Color.rgb 255 0 0)).r ∧
        r2.image ((((0 / sampleBound0.width) * sampleBound0.cellSize + ly) *
            (sampleBound0.width * sampleBound0.cellSize) +
            ((0 % sampleBound0.width) * sampleBound0.cellSize + lx)) * 4 + 1) =
          (resolveColor sampleConv (Color.rgb 255 0 0)).g ∧
        r2.image ((((0 / sampleBound0.width) * sampleBound0.cellSize + ly) *
            (sampleBound0.width * sampleBound0.cellSize) +
            ((0 % sampleBound0.width) * sampleBound0.cellSize + lx)) * 4 + 2) =
          (resolveColor sampleConv (Color.rgb 255 0 0)).b ∧
        r2.image ((((0 / sampleBound0.width) * sampleBound0.cellSize + ly) *
            (sampleBound0.width * sampleBound0.cellSize) +
            ((0 % sampleBound0.width) * sampleBound0.cellSize + lx)) * 4 + 3) = 255) ∧
      (∀ px py t, t < 4 → px < sampleBound0.width * sampleBound0.cellSize →
        (px < (0 % sampleBound0.width) * sampleBound0.cellSize ∨
         (0 % sampleBound0.width) * sampleBound0.cellSize + sampleBound0.cellSize ≤ px ∨
         py < (0 / sampleBound0.width) * sampleBound0.cellSize ∨
         (0 / sampleBound0.width) * sampleBound0.cellSize + sampleBound0.cellSize ≤ py) →
        r2.image ((py * (sampleBound0.width * sampleBound0.cellSize) + px) * 4 + t) =
          sampleBound0.image ((py * (sampleBound0.width * sampleBound0.cellSize) + px) * 4 + t))) :=
  ⟨⟨by decide, by decide, by decide⟩,
   setBackground_fills_block Nat sampleConv (Color.rgb 255 0 0) sampleBound0 0 0
     (by decide) (by decide) (by decide)⟩

/-! ### C9 — draw calls require a bound cell context -/

/-- C9 counterexample: the claim says draw calls succeed during every cell's
evaluation in the construction pass, but `start`'s construction loop binds
only `currentId` (line 218), never `currentCell`, so a `point` draw issued
while `construct()` runs for cell 0 of a freshly materialized 2×2 automaton
throws the loop-only error. -/

theorem point_during_construct_fails :
    setPoint sampleConv 0 0 (Color.rgb 255 0 0) sampleConstructing =
      Except.error "This function can only be called in loop function." := rfl

/-- C9 (amended): draw calls succeed exactly while `currentCell` is bound
(for `background`, when `cellSize > 0`, since an empty loop cannot throw);
the context is bound during each scan visit, but the construction pass binds
only the id and leaves `currentCell` untouched, and outside any pass —
after `start` or after a tick — `currentCell` is `null`, so draw calls fail
during construction and outside passes alike. -/

theorem draw_requires_bound_context (σ : Type) (conv : Nat → Nat → Nat → Rgb)
    (x y : Nat) (c : Color) (r : Renderer σ) (f : LoopFn σ) (i : Nat) (cf : Int → σ) :
    okB (setPoint conv x y c r) = r.currentCell.isSome ∧
    (0 < r.cellSize → okB (setBackground conv c r) = r.currentCell.isSome) ∧
    (duringConstruct r i).currentCell = r.currentCell ∧
    (scanVisit f r i).currentCell = some (r.step, i) ∧
    (start (some cf) r).currentCell = none ∧
    (onRender (some f) r).currentCell = none := by
  refine ⟨?_, ?_, rfl, rfl, rfl, rfl⟩
  · cases hb : r.currentCell with
    | none => simp [setPoint, hb, okB]
    | some bi => simp [setPoint, hb, okB]
  · intro hcs
    cases hb : r.currentCell with
    | none =>
      rw [setBackground_err_of_unbound conv c r hb hcs]
      rfl
    | some bi =>
      rw [setBackground_ok_of_bound conv c r bi.1 bi.2
        (show r.currentCell = some (bi.1, bi.2) from hb)]
      rfl

theorem draw_requires_bound_context_witness :
    0 < sampleBound.cellSize ∧
    (okB (setPoint sampleConv 0 1 (Color.rgb 1 2 3) sampleBound) =
        sampleBound.currentCell.isSome ∧
     (0 < sampleBound.cellSize →
       okB (setBackground sampleConv (Color.rgb 1 2 3) sampleBound) =
         sampleBound.currentCell.isSome) ∧
     (duringConstruct sampleBound 0).currentCell = sampleBound.currentCell ∧
     (scanVisit sampleLoop sampleBound 0).currentCell = some (sampleBound.step, 0) ∧
     (start (some sampleCf) sampleBound).currentCell = none ∧
     (onRender (some sampleLoop) sampleBound).currentCell = none) :=
  ⟨by decide,
   draw_requires_bound_context Nat sampleConv 0 1 (Color.rgb 1 2 3) sampleBound
     sampleLoop 0 sampleCf⟩

theorem stop_prevents_ticks_witness :
    (∀ cf, SysEv.startEv cf ∉
        ([SysEv.fire (some sampleLoop), SysEv.stopEv, SysEv.fire none] :
          List (SysEv Nat))) ∧
    ((sysStop sampleSystem).timer = false ∧
     (sysRun (sysStop sampleSystem)
       [SysEv.fire (some sampleLoop), SysEv.stopEv, SysEv.fire none]).ticks =
       sampleSystem.ticks ∧
     (sysRun (sysStop sampleSystem)
       [SysEv.fire (some sampleLoop), SysEv.stopEv, SysEv.fire none]).rend =
       sampleSystem.rend ∧
     (sysRun (sysStop sampleSystem)
       [SysEv.fire (some sampleLoop), SysEv.stopEv, SysEv.fire none]).timer = false) :=
  ⟨by intro cf; simp,
   stop_prevents_ticks Nat sampleSystem
     [SysEv.fire (some sampleLoop), SysEv.stopEv, SysEv.fire none]
     (by intro cf; simp)⟩

end Cellule
